import Mathlib

/-!
Shallow embedding of `crypto_assets/exchange/models.py` from the
Django-Crypto-Assets-Monitoring repository, together with proofs about the
derived financial calculations, the exchange dispatch, and the importer save
hook.

Modelling conventions:
* Python `Decimal` fields hold exact decimal numbers; they are modelled by `ℚ`.
  Decimal arithmetic (`*`, `-`) is exact, matching the model.
* Python `float` arithmetic (the true division in `get_change_percentage` and
  the `float(...)` conversions) is modelled by exact rational arithmetic; the
  IEEE-754 shortest string representation of a float is not modelled and is
  kept as an explicit function parameter wherever the code calls
  `str(float(...))` or formats a float.
* Django ORM records are plain structures; the `Exchange` table is a list and
  `Exchange.objects.last()` is the last element of that list.
* `CharField` values are `String`; comparisons against `TextChoices` members
  compare against the member's string value, as Python does.
* Methods that can raise return `Except String` with the raised message.
-/

namespace CryptoAssets

/-- Python `int(q)` on an exact numeric value: truncation toward zero. -/
def pyInt (q : ℚ) : ℤ := if 0 ≤ q then ⌊q⌋ else -⌊-q⌋

/-- Python `round(x, n)` on an exact value: round half to even at `n` decimal
places (the default rounding of both `float.__round__` and the decimal
context). -/
def pyRound (n : ℕ) (q : ℚ) : ℚ :=
  let s : ℚ := q * (10 : ℚ) ^ n
  let f : ℤ := ⌊s⌋
  let r : ℤ :=
    if s - f < 1/2 then f
    else if s - f > 1/2 then f + 1
    else if f % 2 = 0 then f else f + 1
  (r : ℚ) / (10 : ℚ) ^ n

/-- Digit grouping used by Python's format specifier `,`: working over the
digit list least-significant first, insert a comma after every third digit. -/
def commaRev : List Char → List Char
  | a :: b :: c :: d :: l => a :: b :: c :: ',' :: commaRev (d :: l)
  | l => l

/-- Python `f"{n:,}"` for a natural number. -/
def natComma (n : ℕ) : String :=
  String.mk (commaRev (Nat.toDigits 10 n).reverse).reverse

/-- Python `f"{i:,}"` for an integer: sign followed by the grouped digits of
the absolute value. -/
def intComma (i : ℤ) : String :=
  if i < 0 then "-" ++ natComma i.natAbs else natComma i.natAbs

/-- Python `str.lower()`. -/
def pyLower (s : String) : String := String.mk (s.data.map Char.toLower)

/-- Python `x or 0` for an optional numeric value `x`: `None` and numeric
zero are falsy and give `0`; any other number is returned unchanged. -/
def orZero : Option ℚ → ℚ
  | none => 0
  | some v => if v = 0 then 0 else v

/-- Heterogeneous Python return value: a method that returns either a string
or a number on different branches. -/
inductive PyValue where
  | str : String → PyValue
  | num : ℚ → PyValue
deriving DecidableEq

/-- Modelled from the spec: the two hardcoded exchange integrations
(`platforms.wallex.Wallex`, `platforms.bitpin.Bitpin`); their module is not
part of the provided sources, so a platform is just a tag and its price
lookup and cache routines are parameters of the definitions below. -/
inductive Platform where
  | wallex : Platform
  | bitpin : Platform
deriving DecidableEq

/-- The `Exchange` model: a named external trading venue. -/
structure Exchange where
  pk : ℕ
  name : String
deriving DecidableEq

/-- The `Coin` model, restricted to the field the embedded methods read. -/
structure Coin where
  code : String
deriving DecidableEq

/-- `Exchange.get_platform`: dispatch on `name`; any name other than the two
`ExchangeNameChoices` values raises `Exception("Exchange name is not valid")`. -/
def Exchange.get_platform (e : Exchange) : Except String Platform :=
  if e.name = "wallex" then Except.ok Platform.wallex
  else if e.name = "bitpin" then Except.ok Platform.bitpin
  else Except.error "Exchange name is not valid"

/-- `Exchange.price`: delegate to the selected platform's `get_price`.
`pp` is the platform-specific lookup (modelled from the spec, see
`Platform`); it yields the fetched price or `none` on a failed lookup. -/
def Exchange.price (pp : Platform → Coin → String → Option ℚ)
    (e : Exchange) (coin : Coin) (market : String) : Except String (Option ℚ) :=
  (e.get_platform).map fun p => pp p coin market

/-- `Exchange.cache_all_prices`: delegate to the selected platform's
`cache_all_prices` (modelled from the spec as an abstract routine `cache`). -/
def Exchange.cache_all_prices {α : Type} (cache : Platform → α)
    (e : Exchange) : Except String α :=
  (e.get_platform).map cache

/-- `Exchange.objects.last()` over the exchange table. -/
def objectsLast (db : List Exchange) : Option Exchange := db.getLast?

/-- `Coin.price`: fetch the price via the last `Exchange` record; when the
table is empty, `Exchange.objects.last()` is `None` and the attribute access
`exchange.price` raises. -/
def Coin.price (pp : Platform → Coin → String → Option ℚ)
    (db : List Exchange) (c : Coin) (market : String) : Except String (Option ℚ) :=
  match objectsLast db with
  | none => Except.error "AttributeError: NoneType object has no attribute price"
  | some e => Exchange.price pp e c market

/-- `Coin.get_price`: `f"{float(self.price(market)):,}"`. `floatFmt` models
the comma-grouped formatting of the float value (IEEE string representation
is not modelled); `float(None)` raises. -/
def Coin.get_price (pp : Platform → Coin → String → Option ℚ)
    (floatFmt : ℚ → String) (db : List Exchange) (c : Coin) (market : String) :
    Except String String :=
  match Coin.price pp db c market with
  | Except.error msg => Except.error msg
  | Except.ok none => Except.error "TypeError: float() argument must not be None"
  | Except.ok (some q) => Except.ok (floatFmt q)

/-- C1: `Exchange.get_platform` dispatches on `name` in exactly two ways —
`"wallex"` selects the Wallex platform, `"bitpin"` selects the Bitpin
platform, and every other name raises `Exception("Exchange name is not
valid")`; `Exchange.price` and `Exchange.cache_all_prices` delegate to the
selected platform, so they propagate the same exception for any other name. -/
theorem exchange_dispatch_c1 (e : Exchange)
    (pp : Platform → Coin → String → Option ℚ) (cache : Platform → List (String × ℚ))
    (c : Coin) (m : String) :
    (e.name = "wallex" → e.get_platform = Except.ok Platform.wallex) ∧
    (e.name = "bitpin" → e.get_platform = Except.ok Platform.bitpin) ∧
    (e.name ≠ "wallex" ∧ e.name ≠ "bitpin" →
      e.get_platform = Except.error "Exchange name is not valid" ∧
      Exchange.price pp e c m = Except.error "Exchange name is not valid" ∧
      Exchange.cache_all_prices cache e = Except.error "Exchange name is not valid") ∧
    (∀ p : Platform, e.get_platform = Except.ok p →
      Exchange.price pp e c m = Except.ok (pp p c m) ∧
      Exchange.cache_all_prices cache e = Except.ok (cache p)) := by
  refine ⟨?_, ?_, ?_, ?_⟩
  · intro h
    simp [Exchange.get_platform, h]
  · intro h
    simp [Exchange.get_platform, h]
  · rintro ⟨h1, h2⟩
    simp [Exchange.get_platform, Exchange.price, Exchange.cache_all_prices, h1, h2,
      Except.map]
  · intro p hp
    simp [Exchange.price, Exchange.cache_all_prices, hp, Except.map]

/-- Closed instance of `exchange_dispatch_c1` on concrete exchanges. -/
theorem exchange_dispatch_c1_witness :
    (Exchange.mk 1 "wallex").get_platform = Except.ok Platform.wallex ∧
    (Exchange.mk 2 "bitpin").get_platform = Except.ok Platform.bitpin ∧
    Exchange.price (fun _ _ _ => none) (Exchange.mk 3 "kraken") (Coin.mk "btc") "irt" =
      Except.error "Exchange name is not valid" := by
  refine ⟨?_, ?_, ?_⟩
  · exact (exchange_dispatch_c1 (Exchange.mk 1 "wallex")
      (fun _ _ _ => none) (fun _ => []) (Coin.mk "btc") "irt").1 rfl
  · exact (exchange_dispatch_c1 (Exchange.mk 2 "bitpin")
      (fun _ _ _ => none) (fun _ => []) (Coin.mk "btc") "irt").2.1 rfl
  · exact ((exchange_dispatch_c1 (Exchange.mk 3 "kraken")
      (fun _ _ _ => none) (fun _ => []) (Coin.mk "btc") "irt").2.2.1
      ⟨by decide, by decide⟩).2.1

/-- The `Transaction` model, restricted to the fields its embedded methods
read. `jdateStr` holds `str(self.jdate)` (the Jalali datetime's string form),
and `fetchedPrice` holds the result of the price lookup
`self.coin.price(self.market)` performed by `current_price` — the fetched
price, or `none` when the lookup returns `None`. -/
structure Transaction where
  type : String
  jdateStr : String
  price : ℚ
  quantity : ℚ
  market : String
  coinCode : String
  fetchedPrice : Option ℚ
deriving DecidableEq

/-- `Transaction.total_price`: `int(self.price * self.quantity)`. -/
def Transaction.total_price (t : Transaction) : ℤ := pyInt (t.price * t.quantity)

/-- `Transaction.current_price`: `self.coin.price(self.market) or 0`. -/
def Transaction.current_price (t : Transaction) : ℚ := orZero t.fetchedPrice

/-- `Transaction.get_current_value`: `int(self.current_price * self.quantity)`. -/
def Transaction.get_current_value (t : Transaction) : ℤ :=
  pyInt (t.current_price * t.quantity)

/-- `Transaction.get_price`: comma-grouped `int(self.price)` in the Toman
market, otherwise `float(round(self.price, 2))`. -/
def Transaction.get_price (t : Transaction) : PyValue :=
  if t.market = "irt" then PyValue.str (intComma (pyInt t.price))
  else PyValue.num (pyRound 2 t.price)

/-- `Transaction.get_current_price`: same formatting over `current_price`. -/
def Transaction.get_current_price (t : Transaction) : PyValue :=
  if t.market = "irt" then PyValue.str (intComma (pyInt t.current_price))
  else PyValue.num (pyRound 2 t.current_price)

/-- `Transaction.get_quantity`: `float(round(self.quantity, 6))`. -/
def Transaction.get_quantity (t : Transaction) : ℚ := pyRound 6 t.quantity

/-- `Transaction.get_profit_or_loss`: `"-"` for a sell, otherwise the
comma-grouped difference `get_current_value - total_price`. -/
def Transaction.get_profit_or_loss (t : Transaction) : String :=
  if t.type = "sell" then "-"
  else intComma (t.get_current_value - t.total_price)

/-- `Transaction.get_total_price`: `f"{self.total_price:,}"`. -/
def Transaction.get_total_price (t : Transaction) : String := intComma t.total_price

/-- `Transaction.get_current_value_admin`: `f"{self.get_current_value:,}"`. -/
def Transaction.get_current_value_admin (t : Transaction) : String :=
  intComma t.get_current_value

/-- `Transaction.construct_platform_id`: the `"|"`-join of the six components
lowercased. `floatStr` models Python's `str(float(...))` (the IEEE-754
shortest decimal representation, which is not modelled further). -/
def Transaction.construct_platform_id (floatStr : ℚ → String)
    (t : Transaction) : String :=
  pyLower (String.intercalate "|"
    [t.jdateStr, t.coinCode, t.market, t.type, floatStr t.quantity, floatStr t.price])

/-- `Transaction.is_buy_transaction`. -/
def Transaction.is_buy_transaction (t : Transaction) : Bool := t.type == "buy"

/-- `Transaction.is_sell_transaction`. -/
def Transaction.is_sell_transaction (t : Transaction) : Bool := t.type == "sell"

/-- `Transaction.is_toman_market`. -/
def Transaction.is_toman_market (t : Transaction) : Bool := t.market == "irt"

/-- `Transaction.is_usdt_market`. -/
def Transaction.is_usdt_market (t : Transaction) : Bool := t.market == "usdt"

/-- `Transaction.get_change_percentage`: `"-"` for a sell; `0` when
`total_price` is zero; otherwise the percentage change rounded to 2 places
(the Python true division of the two integers is modelled exactly). -/
def Transaction.get_change_percentage (t : Transaction) : PyValue :=
  if t.type = "sell" then PyValue.str "-"
  else if t.total_price = 0 then PyValue.num 0
  else PyValue.num (pyRound 2
    ((((t.get_current_value : ℚ) - (t.total_price : ℚ)) / (t.total_price : ℚ)) * 100))

/-- Truncation toward zero agrees with the floor on nonnegative input. -/
theorem pyInt_of_nonneg (q : ℚ) (h : 0 ≤ q) : pyInt q = ⌊q⌋ := by
  rw [pyInt, if_pos h]

/-- Truncation toward zero agrees with the ceiling on negative input. -/
theorem pyInt_of_neg (q : ℚ) (h : q < 0) : pyInt q = ⌈q⌉ := by
  rw [pyInt, if_neg (not_le.mpr h), Int.floor_neg, neg_neg]

/-- Truncation toward zero never increases the absolute value. -/
theorem abs_pyInt_le (q : ℚ) : |(pyInt q : ℚ)| ≤ |q| := by
  rcases le_or_lt 0 q with h | h
  · rw [pyInt_of_nonneg q h, abs_of_nonneg h,
      abs_of_nonneg (by exact_mod_cast Int.floor_nonneg.mpr h)]
    exact_mod_cast Int.floor_le q
  · have hc : ⌈q⌉ ≤ 0 := Int.ceil_le.mpr (by exact_mod_cast h.le)
    rw [pyInt_of_neg q h, abs_of_neg h, abs_of_nonpos (by exact_mod_cast hc)]
    exact_mod_cast neg_le_neg (Int.le_ceil q)

/-- C2: `get_change_percentage` never divides by zero — for a buy
transaction it returns `0` outright when `total_price = 0`, and performs the
division `((get_current_value - total_price) / total_price) * 100` rounded
to 2 places only when `total_price ≠ 0`; for a sell transaction it returns
the string `"-"`. -/
theorem change_percentage_guard_c2 (t : Transaction) :
    (t.type = "sell" → t.get_change_percentage = PyValue.str "-") ∧
    (t.type = "buy" →
      (t.total_price = 0 → t.get_change_percentage = PyValue.num 0) ∧
      (t.total_price ≠ 0 → t.get_change_percentage = PyValue.num (pyRound 2
        ((((t.get_current_value : ℚ) - (t.total_price : ℚ)) / (t.total_price : ℚ))
          * 100)))) := by
  refine ⟨fun h => by simp [Transaction.get_change_percentage, h], fun h => ⟨?_, ?_⟩⟩
  · intro h0
    simp [Transaction.get_change_percentage, h, h0]
  · intro h0
    simp [Transaction.get_change_percentage, h, h0]

/-- Closed instance of `change_percentage_guard_c2`: a sell, a buy with zero
total price, and a buy with current value 12 and total price 6 (change 100%). -/
theorem change_percentage_guard_c2_witness :
    (Transaction.mk "sell" "d" 1 1 "irt" "btc" none).get_change_percentage =
      PyValue.str "-" ∧
    (Transaction.mk "buy" "d" 0 0 "irt" "btc" none).get_change_percentage =
      PyValue.num 0 ∧
    (Transaction.mk "buy" "d" 2 3 "irt" "btc" (some 4)).get_change_percentage =
      PyValue.num 100 := by
  refine ⟨(change_percentage_guard_c2 _).1 rfl, ?_, ?_⟩
  · have h0 : (Transaction.mk "buy" "d" 0 0 "irt" "btc" none).total_price = 0 := by
      norm_num [Transaction.total_price, pyInt]
    exact ((change_percentage_guard_c2 _).2 rfl).1 h0
  · have htp : (Transaction.mk "buy" "d" 2 3 "irt" "btc" (some 4)).total_price = 6 := by
      norm_num [Transaction.total_price, pyInt]
    have hcv : (Transaction.mk "buy" "d" 2 3 "irt" "btc" (some 4)).get_current_value
        = 12 := by
      norm_num [Transaction.get_current_value, Transaction.current_price, orZero, pyInt]
    have h := ((change_percentage_guard_c2
      (Transaction.mk "buy" "d" 2 3 "irt" "btc" (some 4))).2 rfl).2 (by rw [htp]; decide)
    rw [h, htp, hcv]
    have harg : ((((12 : ℤ) : ℚ) - ((6 : ℤ) : ℚ)) / ((6 : ℤ) : ℚ)) * 100 = 100 := by
      push_cast
      norm_num
    rw [harg]
    have : pyRound 2 (100 : ℚ) = 100 := by
      rw [pyRound]
      norm_num
    rw [this]

/-- C3: `total_price` is the decimal product `price * quantity` truncated
toward zero, and `get_current_value` is `current_price * quantity` truncated
toward zero; truncation toward zero means floor for a nonnegative product,
ceiling for a negative one, and it never increases the absolute value. -/
theorem total_price_truncation_c3 (t : Transaction) :
    t.total_price = pyInt (t.price * t.quantity) ∧
    t.get_current_value = pyInt (t.current_price * t.quantity) ∧
    (0 ≤ t.price * t.quantity → t.total_price = ⌊t.price * t.quantity⌋) ∧
    (t.price * t.quantity < 0 → t.total_price = ⌈t.price * t.quantity⌉) ∧
    |(t.total_price : ℚ)| ≤ |t.price * t.quantity| := by
  refine ⟨rfl, rfl, fun h => pyInt_of_nonneg _ h, fun h => pyInt_of_neg _ h, ?_⟩
  exact abs_pyInt_le (t.price * t.quantity)

/-- Closed instance of `total_price_truncation_c3`: `3.5` truncates to `3`
and `-3.5` truncates to `-3` (the ceiling). -/
theorem total_price_truncation_c3_witness :
    (Transaction.mk "buy" "d" (7/2) 1 "irt" "btc" none).total_price = 3 ∧
    (Transaction.mk "buy" "d" (-7/2) 1 "irt" "btc" none).total_price = -3 := by
  constructor
  · have h := (total_price_truncation_c3
      (Transaction.mk "buy" "d" (7/2) 1 "irt" "btc" none)).2.2.1 (by norm_num)
    rw [h]
    norm_num
  · have h := (total_price_truncation_c3
      (Transaction.mk "buy" "d" (-7/2) 1 "irt" "btc" none)).2.2.2.1 (by norm_num)
    rw [h]
    have : ((-7/2 : ℚ) * 1) = -(7/2) := by norm_num
    rw [this, Int.ceil_neg]
    norm_num

/-- C4: `get_profit_or_loss` is `"-"` for a sell transaction and the
comma-grouped decimal string of `get_current_value - total_price` for a buy
transaction. -/
theorem profit_or_loss_c4 (t : Transaction) :
    (t.type = "sell" → t.get_profit_or_loss = "-") ∧
    (t.type = "buy" →
      t.get_profit_or_loss = intComma (t.get_current_value - t.total_price)) := by
  refine ⟨fun h => ?_, fun h => ?_⟩
  · simp [Transaction.get_profit_or_loss, h]
  · simp [Transaction.get_profit_or_loss, h]

/-- Closed instance of `profit_or_loss_c4`: a buy at total price 6 whose
current value is 1500 yields the string `"1,494"`. -/
theorem profit_or_loss_c4_witness :
    (Transaction.mk "sell" "d" 1 1 "irt" "btc" none).get_profit_or_loss = "-" ∧
    (Transaction.mk "buy" "d" 2 3 "irt" "btc" (some 500)).get_profit_or_loss =
      "1,494" := by
  constructor
  · exact (profit_or_loss_c4 _).1 rfl
  · have h := (profit_or_loss_c4
      (Transaction.mk "buy" "d" 2 3 "irt" "btc" (some 500))).2 rfl
    have hcv : (Transaction.mk "buy" "d" 2 3 "irt" "btc" (some 500)).get_current_value
        = 1500 := by
      norm_num [Transaction.get_current_value, Transaction.current_price, orZero, pyInt]
    have htp : (Transaction.mk "buy" "d" 2 3 "irt" "btc" (some 500)).total_price
        = 6 := by
      norm_num [Transaction.total_price, pyInt]
    rw [h, hcv, htp]
    decide

/-- C6: the display properties are pure market-dependent formatting —
`get_price` is the comma-grouped string of `int(price)` in the Toman market
and otherwise the float of `price` rounded to 2 places; `get_current_price`
does the same over `current_price`; `get_quantity` is the float of
`quantity` rounded to 6 places. -/
theorem display_formatting_c6 (t : Transaction) :
    (t.market = "irt" →
      t.get_price = PyValue.str (intComma (pyInt t.price)) ∧
      t.get_current_price = PyValue.str (intComma (pyInt t.current_price))) ∧
    (t.market ≠ "irt" →
      t.get_price = PyValue.num (pyRound 2 t.price) ∧
      t.get_current_price = PyValue.num (pyRound 2 t.current_price)) ∧
    t.get_quantity = pyRound 6 t.quantity := by
  refine ⟨fun h => ⟨?_, ?_⟩, fun h => ⟨?_, ?_⟩, rfl⟩
  · simp [Transaction.get_price, h]
  · simp [Transaction.get_current_price, h]
  · simp [Transaction.get_price, h]
  · simp [Transaction.get_current_price, h]

/-- Closed instance of `display_formatting_c6`: a Toman-market price is
comma-grouped, a Tether-market price `10/3` rounds to `3.33`, and a quantity
`1/3` rounds to `0.333333`. -/
theorem display_formatting_c6_witness :
    (Transaction.mk "buy" "d" 1234567 1 "irt" "btc" none).get_price =
      PyValue.str "1,234,567" ∧
    (Transaction.mk "buy" "d" (10/3) 1 "usdt" "btc" none).get_price =
      PyValue.num (333/100) ∧
    (Transaction.mk "buy" "d" 1 (1/3) "usdt" "btc" none).get_quantity =
      333333/1000000 := by
  refine ⟨?_, ?_, ?_⟩
  · have h := ((display_formatting_c6
      (Transaction.mk "buy" "d" 1234567 1 "irt" "btc" none)).1 rfl).1
    rw [h]
    have : pyInt ((1234567 : ℚ)) = 1234567 := by
      rw [pyInt]
      norm_num
    rw [this]
    decide
  · have h := ((display_formatting_c6
      (Transaction.mk "buy" "d" (10/3) 1 "usdt" "btc" none)).2.1 (by decide)).1
    rw [h]
    have : pyRound 2 ((10/3 : ℚ)) = 333/100 := by
      rw [pyRound]
      norm_num
    rw [this]
  · have h := (display_formatting_c6
      (Transaction.mk "buy" "d" 1 (1/3) "usdt" "btc" none)).2.2
    rw [h]
    rw [pyRound]
    norm_num

/-- C7: when the `type` field holds one of the declared choices, exactly one
of `is_buy_transaction` and `is_sell_transaction` is true; and
`is_toman_market` and `is_usdt_market` are never both true, whatever the
`market` value. -/
theorem type_market_predicates_c7 (t : Transaction) :
    (t.type = "buy" ∨ t.type = "sell" →
      (t.is_buy_transaction = true ∧ t.is_sell_transaction = false) ∨
      (t.is_buy_transaction = false ∧ t.is_sell_transaction = true)) ∧
    ¬(t.is_toman_market = true ∧ t.is_usdt_market = true) := by
  constructor
  · rintro (h | h)
    · left
      simp [Transaction.is_buy_transaction, Transaction.is_sell_transaction, h]
    · right
      simp [Transaction.is_buy_transaction, Transaction.is_sell_transaction, h]
  · rintro ⟨h1, h2⟩
    simp [Transaction.is_toman_market] at h1
    simp [Transaction.is_usdt_market] at h2
    rw [h1] at h2
    exact absurd h2 (by decide)

/-- Closed instance of `type_market_predicates_c7` on a buy and a sell. -/
theorem type_market_predicates_c7_witness :
    ((Transaction.mk "buy" "d" 1 1 "irt" "btc" none).is_buy_transaction = true ∧
      (Transaction.mk "buy" "d" 1 1 "irt" "btc" none).is_sell_transaction = false) ∧
    ((Transaction.mk "sell" "d" 1 1 "usdt" "btc" none).is_buy_transaction = false ∧
      (Transaction.mk "sell" "d" 1 1 "usdt" "btc" none).is_sell_transaction = true) ∧
    ¬((Transaction.mk "buy" "d" 1 1 "irt" "btc" none).is_toman_market = true ∧
      (Transaction.mk "buy" "d" 1 1 "irt" "btc" none).is_usdt_market = true) := by
  refine ⟨?_, ?_, ?_⟩
  · rcases (type_market_predicates_c7
      (Transaction.mk "buy" "d" 1 1 "irt" "btc" none)).1 (Or.inl rfl) with h | h
    · exact h
    · exact absurd h.1 (by decide)
  · rcases (type_market_predicates_c7
      (Transaction.mk "sell" "d" 1 1 "usdt" "btc" none)).1 (Or.inr rfl) with h | h
    · exact absurd h.1 (by decide)
    · exact h
  · exact (type_market_predicates_c7 (Transaction.mk "buy" "d" 1 1 "irt" "btc" none)).2

/-- C8: a falsy price lookup (`None` or zero) is absorbed — `current_price`
is `0`, hence `get_current_value` is `0`, and a buy transaction's
`get_profit_or_loss` is the formatted negation of `total_price`; no error is
propagated. -/
theorem falsy_price_absorbed_c8 (t : Transaction)
    (h : t.fetchedPrice = none ∨ t.fetchedPrice = some 0) :
    t.current_price = 0 ∧ t.get_current_value = 0 ∧
    (t.type = "buy" → t.get_profit_or_loss = intComma (-t.total_price)) := by
  have hcp : t.current_price = 0 := by
    rcases h with h | h
    · simp [Transaction.current_price, h, orZero]
    · simp [Transaction.current_price, h, orZero]
  have hcv : t.get_current_value = 0 := by
    rw [Transaction.get_current_value, hcp, zero_mul, pyInt, if_pos le_rfl]
    exact Int.floor_zero
  refine ⟨hcp, hcv, fun hb => ?_⟩
  rw [Transaction.get_profit_or_loss, if_neg (by rw [hb]; decide), hcv, zero_sub]

/-- Closed instance of `falsy_price_absorbed_c8`: a buy at total price 6
whose lookup failed reports a profit of `"-6"`; a zero lookup gives a zero
current price. -/
theorem falsy_price_absorbed_c8_witness :
    (Transaction.mk "buy" "d" 2 3 "irt" "btc" none).get_profit_or_loss = "-6" ∧
    (Transaction.mk "buy" "d" 2 3 "irt" "btc" (some 0)).current_price = 0 := by
  constructor
  · have h := (falsy_price_absorbed_c8
      (Transaction.mk "buy" "d" 2 3 "irt" "btc" none) (Or.inl rfl)).2.2 rfl
    have htp : (Transaction.mk "buy" "d" 2 3 "irt" "btc" none).total_price = 6 := by
      norm_num [Transaction.total_price, pyInt]
    rw [h, htp]
    decide
  · exact (falsy_price_absorbed_c8
      (Transaction.mk "buy" "d" 2 3 "irt" "btc" (some 0)) (Or.inr rfl)).1

/-- C9: `construct_platform_id` is the lowercase of the `"|"`-join of
exactly six components in order — `str(jdate)`, the coin code, the market,
the type, `str(float(quantity))`, `str(float(price))` — and it is
deterministic: transactions agreeing on those six values get the same id,
for any model `floatStr` of Python's float-to-string conversion. -/
theorem platform_id_c9 (floatStr : ℚ → String) (t u : Transaction) :
    Transaction.construct_platform_id floatStr t =
      pyLower (String.intercalate "|"
        [t.jdateStr, t.coinCode, t.market, t.type,
          floatStr t.quantity, floatStr t.price]) ∧
    (t.jdateStr = u.jdateStr → t.coinCode = u.coinCode → t.market = u.market →
      t.type = u.type → t.quantity = u.quantity → t.price = u.price →
      Transaction.construct_platform_id floatStr t =
        Transaction.construct_platform_id floatStr u) := by
  refine ⟨rfl, fun h1 h2 h3 h4 h5 h6 => ?_⟩
  rw [Transaction.construct_platform_id, Transaction.construct_platform_id,
    h1, h2, h3, h4, h5, h6]

/-- Closed instance of `platform_id_c9`: a concrete id, lowercased, and two
transactions differing only in the lookup result share the same id. -/
theorem platform_id_c9_witness :
    Transaction.construct_platform_id (fun _ => "1.0")
      (Transaction.mk "BUY" "2024-01-01" 1 1 "IRT" "BTC" none) =
      "2024-01-01|btc|irt|buy|1.0|1.0" ∧
    Transaction.construct_platform_id (fun _ => "1.0")
      (Transaction.mk "BUY" "2024-01-01" 1 1 "IRT" "BTC" none) =
      Transaction.construct_platform_id (fun _ => "1.0")
      (Transaction.mk "BUY" "2024-01-01" 1 1 "IRT" "BTC" (some 9)) := by
  constructor
  · rw [(platform_id_c9 (fun _ => "1.0")
      (Transaction.mk "BUY" "2024-01-01" 1 1 "IRT" "BTC" none)
      (Transaction.mk "BUY" "2024-01-01" 1 1 "IRT" "BTC" none)).1]
    decide
  · exact (platform_id_c9 (fun _ => "1.0")
      (Transaction.mk "BUY" "2024-01-01" 1 1 "IRT" "BTC" none)
      (Transaction.mk "BUY" "2024-01-01" 1 1 "IRT" "BTC" (some 9))).2
      rfl rfl rfl rfl rfl rfl

/-- A background task sent to the queue: `tasks.process_importer.delay(pk)`. -/
inductive Task where
  | processImporterDelay : ℕ → Task
deriving DecidableEq

/-- The `Importer` model, restricted to the primary key its `save` uses. -/
structure Importer where
  pk : ℕ
deriving DecidableEq

/-- Effect state for Django's transaction machinery: persisted importer rows,
the nesting depth of open `atomic` blocks, the on-commit callbacks registered
in the current outermost transaction, and the tasks actually handed to the
queue. Savepoint-level rollback of inner blocks is not modelled — only the
discard-on-rollback of the outermost transaction, which is what the claim
about `Importer.save` turns on. -/
structure DBState where
  rows : List ℕ
  depth : ℕ
  pending : List Task
  enqueued : List Task
deriving DecidableEq

/-- Entering `transaction.atomic()`. -/
def atomicBegin (s : DBState) : DBState :=
  { s with depth := s.depth + 1 }

/-- `transaction.on_commit(cb)`: register a callback to run when the
outermost enclosing transaction commits. -/
def on_commit (cb : Task) (s : DBState) : DBState :=
  { s with pending := s.pending ++ [cb] }

/-- Leaving an `atomic` block. Leaving the outermost block with a commit
runs the registered callbacks (handing their tasks to the queue); leaving it
with a rollback discards them. Leaving an inner block only decrements the
nesting depth. -/
def atomicEnd (commit : Bool) (s : DBState) : DBState :=
  if s.depth ≤ 1 then
    if commit then
      { s with depth := 0, pending := [], enqueued := s.enqueued ++ s.pending }
    else
      { s with depth := 0, pending := [] }
  else
    { s with depth := s.depth - 1 }

/-- `models.Model.save`: persist the record. -/
def superSave (pk : ℕ) (s : DBState) : DBState :=
  { s with rows := s.rows ++ [pk] }

/-- `Importer.save`: inside `transaction.atomic()`, register the on-commit
callback enqueueing `tasks.process_importer.delay(self.pk)`, then perform
the normal save; the block then exits normally (commit). -/
def Importer.save (imp : Importer) (s : DBState) : DBState :=
  atomicEnd true
    (superSave imp.pk (on_commit (Task.processImporterDelay imp.pk) (atomicBegin s)))

/-- C5: `Importer.save` persists the record as a normal save would and
registers exactly one on-commit callback enqueueing
`process_importer.delay(pk)`. With no enclosing transaction the atomic block
it opens is the outermost one, so the task is enqueued exactly once on exit;
inside an enclosing transaction the callback stays registered and is handed
to the queue exactly once if that transaction commits, and never if it rolls
back. -/
theorem importer_save_on_commit_c5 (imp : Importer) (s : DBState) :
    (Importer.save imp s).rows = s.rows ++ [imp.pk] ∧
    (s.depth = 0 →
      (Importer.save imp s).enqueued =
        s.enqueued ++ s.pending ++ [Task.processImporterDelay imp.pk] ∧
      (Importer.save imp s).pending = [] ∧
      (Importer.save imp s).depth = 0) ∧
    (0 < s.depth →
      (Importer.save imp s).enqueued = s.enqueued ∧
      (Importer.save imp s).pending =
        s.pending ++ [Task.processImporterDelay imp.pk] ∧
      (Importer.save imp s).depth = s.depth) ∧
    (s.depth = 1 →
      (atomicEnd true (Importer.save imp s)).enqueued =
        s.enqueued ++ s.pending ++ [Task.processImporterDelay imp.pk] ∧
      (atomicEnd false (Importer.save imp s)).enqueued = s.enqueued) := by
  refine ⟨?_, fun h0 => ?_, fun hpos => ?_, fun h1 => ?_⟩
  · simp [Importer.save, atomicEnd, superSave, on_commit, atomicBegin]
    split <;> rfl
  · simp [Importer.save, atomicEnd, superSave, on_commit, atomicBegin, h0]
  · have hne : ¬ s.depth + 1 ≤ 1 := by omega
    simp [Importer.save, atomicEnd, superSave, on_commit, atomicBegin, hne]
  · have hne : ¬ s.depth + 1 ≤ 1 := by omega
    constructor
    · simp [Importer.save, atomicEnd, superSave, on_commit, atomicBegin, hne, h1]
    · simp [Importer.save, atomicEnd, superSave, on_commit, atomicBegin, hne, h1]

/-- Closed instance of `importer_save_on_commit_c5`: saving importer 7 from
a quiescent state enqueues its task once; saving inside an open transaction
that rolls back enqueues nothing. -/
theorem importer_save_on_commit_c5_witness :
    (Importer.save (Importer.mk 7) (DBState.mk [] 0 [] [])).enqueued =
      [Task.processImporterDelay 7] ∧
    (Importer.save (Importer.mk 7) (DBState.mk [] 0 [] [])).rows = [7] ∧
    (atomicEnd false
      (Importer.save (Importer.mk 7) (DBState.mk [] 1 [] []))).enqueued = [] := by
  refine ⟨?_, ?_, ?_⟩
  · exact ((importer_save_on_commit_c5 (Importer.mk 7)
      (DBState.mk [] 0 [] [])).2.1 rfl).1
  · exact (importer_save_on_commit_c5 (Importer.mk 7) (DBState.mk [] 0 [] [])).1
  · exact ((importer_save_on_commit_c5 (Importer.mk 7)
      (DBState.mk [] 1 [] [])).2.2.2 rfl).2

/-- C10: `Coin.price` reads `Exchange.objects.last()` — with an empty
exchange table the lookup yields `None` and the call raises; with a last
exchange of valid name it delegates to that exchange's platform; and
`Coin.get_price` returns the fetched price converted to float and formatted
with thousands separators (`floatFmt`). -/
theorem coin_price_last_exchange_c10 (pp : Platform → Coin → String → Option ℚ)
    (floatFmt : ℚ → String) (db : List Exchange) (c : Coin) (m : String) :
    (db = [] →
      Coin.price pp db c m =
        Except.error "AttributeError: NoneType object has no attribute price") ∧
    (∀ e : Exchange, objectsLast db = some e →
      Coin.price pp db c m = Exchange.price pp e c m ∧
      ((e.name = "wallex" ∨ e.name = "bitpin") →
        ∃ p : Platform, Coin.price pp db c m = Except.ok (pp p c m))) ∧
    (∀ q : ℚ, Coin.price pp db c m = Except.ok (some q) →
      Coin.get_price pp floatFmt db c m = Except.ok (floatFmt q)) := by
  refine ⟨fun h => ?_, fun e he => ⟨?_, fun hn => ?_⟩, fun q hq => ?_⟩
  · simp [Coin.price, objectsLast, h]
  · simp [Coin.price, he]
  · rcases hn with hn | hn
    · refine ⟨Platform.wallex, ?_⟩
      simp [Coin.price, he, Exchange.price, Exchange.get_platform, hn, Except.map]
    · refine ⟨Platform.bitpin, ?_⟩
      simp [Coin.price, he, Exchange.price, Exchange.get_platform, hn, Except.map]
  · simp [Coin.get_price, hq]

/-- Closed instance of `coin_price_last_exchange_c10`: an empty table makes
the lookup fail, and a table ending in a Wallex exchange serves the price 5,
formatted. -/
theorem coin_price_last_exchange_c10_witness :
    Coin.price (fun _ _ _ => some 5) [] (Coin.mk "btc") "irt" =
      Except.error "AttributeError: NoneType object has no attribute price" ∧
    Coin.get_price (fun _ _ _ => some 5) (fun q => intComma (pyInt q))
      [Exchange.mk 1 "wallex"] (Coin.mk "btc") "irt" = Except.ok "5" := by
  constructor
  · exact (coin_price_last_exchange_c10 (fun _ _ _ => some 5)
      (fun q => intComma (pyInt q)) [] (Coin.mk "btc") "irt").1 rfl
  · have hp : Coin.price (fun _ _ _ => some (5 : ℚ)) [Exchange.mk 1 "wallex"]
        (Coin.mk "btc") "irt" = Except.ok (some 5) := by
      simp [Coin.price, objectsLast, Exchange.price, Exchange.get_platform, Except.map]
    have h := (coin_price_last_exchange_c10 (fun _ _ _ => some (5 : ℚ))
      (fun q => intComma (pyInt q)) [Exchange.mk 1 "wallex"]
      (Coin.mk "btc") "irt").2.2 5 hp
    rw [h]
    have h5 : pyInt ((5 : ℚ)) = 5 := by
      rw [pyInt]
      norm_num
    rw [h5]
    rfl

end CryptoAssets
